import Mathlib

/-!
Verification development for the MegaMeshWeb mesh firmware
(src/src/firmware/esp32_lora_unified.ino).

The firmware's hard core (frame codec, CTR cipher layer, duplicate cache,
radio bringup, setup state machine, persisted-config migration) is shallowly
embedded here.  Machine integers are modelled as `Nat` with explicit
`% 256`, `% 65536`, `% 4294967296` where the C code uses `uint8_t`,
`uint16_t`, `uint32_t`.  External collaborators (the RadioLib driver's
`begin`, the mbedtls AES block primitive, the NVS preference store) are
abstracted as explicit parameters; everything the firmware itself computes
is translated from the source.
-/

namespace MegaMesh

/-! ## CRC-16/CCITT-FALSE (crc16_ccitt, firmware lines 1527-1542) -/

/-- One bit-round of the CRC loop: shift left, conditionally XOR 0x1021,
truncated to 16 bits exactly as the C `uint16_t` arithmetic does. -/
def crcRound (c : Nat) : Nat :=
  if c &&& 0x8000 ≠ 0 then ((c <<< 1) ^^^ 0x1021) % 65536 else (c <<< 1) % 65536

/-- Fold one data byte into the running CRC: `crc ^= byte << 8` then eight
bit-rounds. -/
def crcByte (c b : Nat) : Nat :=
  crcRound^[8] (c ^^^ ((b % 256) <<< 8))

/-- CRC-16/CCITT-FALSE: polynomial 0x1021, initial value 0xFFFF, no final
XOR, processed over the byte list. -/
def crc16_ccitt (data : List Nat) : Nat :=
  data.foldl crcByte 0xFFFF

/-! ## Big-endian byte serialization helpers (the explicit shift/mask
expressions used in sendMeshPacket / handleMeshFrame / encryptCtr) -/

/-- Two big-endian bytes of a 16-bit value: `(v >> 8) & 0xFF, v & 0xFF`. -/
def beBytes2 (v : Nat) : List Nat :=
  [v / 256 % 256, v % 256]

/-- Four big-endian bytes of a 32-bit value. -/
def beBytes4 (v : Nat) : List Nat :=
  [v / 16777216 % 256, v / 65536 % 256, v / 256 % 256, v % 256]

/-- Sixteen big-endian bytes of a 128-bit value. -/
def beBytes16 (v : Nat) : List Nat :=
  (List.range 16).map (fun i => v / 256 ^ (15 - i) % 256)

/-- Big-endian value of a byte list. -/
def beVal (l : List Nat) : Nat :=
  l.foldl (fun a b => a * 256 + b % 256) 0

/-! ## CTR cipher layer (encryptCtr / decryptCtr, firmware lines 458-491)

The AES-128 block primitive lives in the external mbedtls library; it is
abstracted as the `aes` field of `CipherEnv` (a keyed block function) and
the possible `mbedtls_aes_setkey_enc` failure as the `keyOk` flag.  The
CTR chaining itself — 16-byte counter block `nonce(8) ‖ counter(4, BE) ‖
0x00000000`, keystream block `j` produced from the counter block plus `j`
(big-endian 128-bit increment), keystream bytes XORed into the payload —
is translated from `encryptCtr` and the documented semantics of
`mbedtls_aes_crypt_ctr`. -/

/-- Cipher environment: the 128-bit mesh key, the (external) keyed AES
block encryption, and whether key setup succeeds. -/
structure CipherEnv where
  key : List Nat
  aes : List Nat → List Nat → List Nat
  keyOk : Bool

/-- Counter block used for keystream block `j`: the initial 16-byte
nonce-counter plus `j`, as a 128-bit big-endian integer. -/
def ctrBlock (nc : List Nat) (j : Nat) : List Nat :=
  beBytes16 ((beVal nc + j) % 2 ^ 128)

/-- The first `n` keystream bytes for block function `E` and initial
counter block `nc`: byte `i` is byte `i % 16` of `E` applied to counter
block `i / 16`. -/
def keystream (E : List Nat → List Nat) (nc : List Nat) (n : Nat) : List Nat :=
  (List.range n).map (fun i => (E (ctrBlock nc (i / 16))).getD (i % 16) 0 % 256)

/-- CTR en/decryption: XOR the input with the keystream. -/
def ctrXcrypt (E : List Nat → List Nat) (nc input : List Nat) : List Nat :=
  List.zipWith (fun a k => a ^^^ k) input (keystream E nc input.length)

/-- The 16-byte initial nonce-counter of `encryptCtr`:
`nonce(8 bytes) ‖ counter(4 bytes, big-endian) ‖ 0x00000000`. -/
def nonceCounter (nonce : List Nat) (counter : Nat) : List Nat :=
  nonce ++ beBytes4 (counter % 4294967296) ++ [0, 0, 0, 0]

/-- `encryptCtr`: identity when mesh encryption is disabled; fails
(returns `none`) when key setup fails; otherwise CTR-encrypts. -/
def encryptCtr (enabled : Bool) (env : CipherEnv) (plain nonce : List Nat)
    (counter : Nat) : Option (List Nat) :=
  if enabled = false then some plain
  else if env.keyOk = false then none
  else some (ctrXcrypt (env.aes env.key) (nonceCounter nonce counter) plain)

/-- `decryptCtr` simply delegates to `encryptCtr` (CTR is its own
inverse), as in the firmware. -/
def decryptCtr (enabled : Bool) (env : CipherEnv) (cipher nonce : List Nat)
    (counter : Nat) : Option (List Nat) :=
  encryptCtr enabled env cipher nonce counter

/-! ## Frame codec (sendMeshPacket lines 515-563, handleMeshFrame 727-813) -/

/-- The four plaintext message types: discovery-request 0x01,
discovery-response 0x02, key-exchange 0x30, key-exchange-ack 0x31. -/
def plainType (t : Nat) : Bool :=
  t == 1 || t == 2 || t == 48 || t == 49

/-- Mesh node state relevant to packet transmission. -/
structure MeshState where
  radioReady : Bool
  meshEncryptionEnabled : Bool
  nodeId : Nat
  meshTxCounter : Nat
deriving DecidableEq

/-- Wire layout of a mesh frame as `sendMeshPacket` builds it:
magic 0x4D 0x58, version 0x01, type, srcId (BE16), dstId (BE16),
counter (BE32), nonce (8 bytes), payloadLen, payload bytes, CRC-16 (BE). -/
def buildFrame (ty src dst ctr : Nat) (nonce enc : List Nat) : List Nat :=
  let hdr := 77 :: 88 :: 1 :: ty % 256 ::
    (beBytes2 (src % 65536) ++ beBytes2 (dst % 65536) ++
     beBytes4 (ctr % 4294967296) ++ nonce ++ enc.length % 256 :: enc)
  hdr ++ beBytes2 (crc16_ccitt hdr)

/-- Result of `sendMeshPacket`: the updated node state, the frame handed
to the radio transmit primitive (`none` when the send aborted before
transmit), and the boolean return value. -/
structure SendResult where
  st : MeshState
  sent : Option (List Nat)
  ok : Bool
deriving DecidableEq

/-- `sendMeshPacket`: refuse when the radio is not ready or the payload
exceeds 120 bytes; copy the payload verbatim for the four plaintext
types, otherwise run it through `encryptCtr` (aborting the send on
cipher failure); lay out the frame, bump the 32-bit transmit counter,
and hand the frame to the radio (`txOk` abstracts the driver's transmit
status). -/
def sendMeshPacket (env : CipherEnv) (st : MeshState) (ty dst : Nat)
    (payload nonce : List Nat) (txOk : Bool) : SendResult :=
  if st.radioReady = false then ⟨st, none, false⟩
  else if 120 < payload.length then ⟨st, none, false⟩
  else
    match (if plainType (ty % 256) then some payload
           else encryptCtr st.meshEncryptionEnabled env payload nonce
             st.meshTxCounter) with
    | none => ⟨st, none, false⟩
    | some enc =>
        ⟨{st with meshTxCounter := (st.meshTxCounter + 1) % 4294967296},
         some (buildFrame (ty % 256) st.nodeId dst st.meshTxCounter nonce enc),
         txOk⟩

/-- Byte read from a received buffer: `uint8_t` access. -/
def byteAt (buf : List Nat) (i : Nat) : Nat :=
  buf.getD i 0 % 256

/-- Outcome of `handleMeshFrame`: either a silent rejection (the function
returns without touching any caller-visible state) or an accepted,
decoded frame. -/
inductive DecodeResult where
  | reject : DecodeResult
  | accept (ty src dst ctr : Nat) (nonce payload : List Nat) : DecodeResult
deriving DecidableEq

/-- The counter field carried in bytes 8..11 of a frame. -/
def frameCtr (f : List Nat) : Nat :=
  byteAt f 8 * 16777216 + byteAt f 9 * 65536 + byteAt f 10 * 256 + byteAt f 11

/-- `handleMeshFrame`: length pre-filter, magic check, CRC check over all
bytes but the trailing two, exact length re-validation, destination
filter, then plaintext copy or CTR decryption of the payload. -/
def handleMeshFrame (env : CipherEnv) (encEnabled : Bool) (nodeId : Nat)
    (buf : List Nat) : DecodeResult :=
  if buf.length < 22 then .reject
  else if ¬(byteAt buf 0 = 77 ∧ byteAt buf 1 = 88) then .reject
  else if byteAt buf (buf.length - 2) * 256 + byteAt buf (buf.length - 1) ≠
      crc16_ccitt (buf.take (buf.length - 2)) then .reject
  else if 21 + byteAt buf 20 + 2 ≠ buf.length then .reject
  else if ¬(byteAt buf 6 * 256 + byteAt buf 7 = 65535 ∨
      byteAt buf 6 * 256 + byteAt buf 7 = nodeId) then .reject
  else if plainType (byteAt buf 3) then
    .accept (byteAt buf 3) (byteAt buf 4 * 256 + byteAt buf 5)
      (byteAt buf 6 * 256 + byteAt buf 7) (frameCtr buf)
      (((buf.drop 12).take 8).map (fun b => b % 256))
      (((buf.drop 21).take (byteAt buf 20)).map (fun b => b % 256))
  else
    match decryptCtr encEnabled env
        (((buf.drop 21).take (byteAt buf 20)).map (fun b => b % 256))
        (((buf.drop 12).take 8).map (fun b => b % 256)) (frameCtr buf) with
    | none => .reject
    | some plain =>
        .accept (byteAt buf 3) (byteAt buf 4 * 256 + byteAt buf 5)
          (byteAt buf 6 * 256 + byteAt buf 7) (frameCtr buf)
          (((buf.drop 12).take 8).map (fun b => b % 256)) plain

/-! ## Duplicate cache (isDuplicate, firmware lines 1433-1449) -/

/-- The 24-entry ring buffer of recently seen frame checksums together
with the current write position. -/
structure DupState where
  dupCache : List Nat
  dupHead : Nat
deriving DecidableEq

/-- `isDuplicate`: linear scan for an exact match (a zero checksum never
matches); on a match return `true` immediately, otherwise write the
checksum at the head position, advance the head with wraparound at 24,
and return `false`. -/
def isDuplicate (st : DupState) (crc : Nat) : Bool × DupState :=
  if st.dupCache.any (fun v => v == crc) && crc != 0 then (true, st)
  else
    (false, ⟨st.dupCache.set st.dupHead crc,
      if st.dupHead + 1 ≥ 24 then 0 else st.dupHead + 1⟩)

/-! ## Node configuration (LoraConfig struct, loadConfig lines 369-456,
enforceHeltecPins lines 269-284, initRadioRobust lines 628-690)

`float` fields carry exact decimal configuration constants (868.0, 1.8,
1.6, 0.01, ...) that are only copied and compared, never combined
arithmetically, so they are modelled as rationals. -/

/-- The current persisted configuration layout. -/
structure LoraConfig where
  magic : Nat
  deviceType : Nat
  csPin : Nat
  resetPin : Nat
  busyPin : Nat
  dioPin : Nat
  frequency : Rat
  bandwidth : Rat
  spreadingFactor : Nat
  codingRate : Nat
  syncWord : Nat
  preambleLength : Nat
  tcxoVoltage : Rat
  useDio2AsRfSwitch : Bool
  btEnabled : Bool
  pwr : Nat
  sclkPin : Nat
  misoPin : Nat
  mosiPin : Nat
  nssPin : Nat
  rstPin : Nat
  dio0Pin : Nat
  dio1Pin : Nat
deriving DecidableEq

/-- The older, smaller persisted layout (first 15 fields only). -/
structure LegacyLoraConfig where
  magic : Nat
  deviceType : Nat
  csPin : Nat
  resetPin : Nat
  busyPin : Nat
  dioPin : Nat
  frequency : Rat
  bandwidth : Rat
  spreadingFactor : Nat
  codingRate : Nat
  syncWord : Nat
  preambleLength : Nat
  tcxoVoltage : Rat
  useDio2AsRfSwitch : Bool
  btEnabled : Bool
deriving DecidableEq

/-- `enforceHeltecPins`: force the Heltec V3 canonical pin assignment and
repair a zeroed TCXO voltage. -/
def enforceHeltecPins (cfg : LoraConfig) : LoraConfig :=
  { cfg with
    csPin := 8, resetPin := 12, busyPin := 13, dioPin := 14,
    sclkPin := 9, misoPin := 11, mosiPin := 10, nssPin := 8,
    rstPin := 12, dio0Pin := 13, dio1Pin := 14,
    tcxoVoltage := if cfg.tcxoVoltage ≤ 1 / 100 then 9 / 5 else cfg.tcxoVoltage }

/-- What the NVS preference store returns for the `cfg` blob, dispatched
by stored length exactly as `loadConfig` does: a blob of the current
layout's size, a blob of the legacy layout's size, or anything else. -/
inductive StoredBlob where
  | current (c : LoraConfig)
  | legacy (l : LegacyLoraConfig)
  | absent
deriving DecidableEq

/-- `loadConfig`: accept a current-layout blob with the magic
0x4C4F5241 (re-enforcing Heltec pins for deviceType 0), upgrade a
legacy-layout blob with that magic in place (copying shared fields,
defaulting the fields the old layout lacks), reject anything else. -/
def loadConfig (b : StoredBlob) : Option LoraConfig :=
  match b with
  | .current c =>
      if c.magic = 0x4C4F5241 then
        some (if c.deviceType = 0 then enforceHeltecPins c else c)
      else none
  | .legacy o =>
      if o.magic = 0x4C4F5241 then
        let base : LoraConfig :=
          { magic := o.magic, deviceType := o.deviceType, csPin := o.csPin,
            resetPin := o.resetPin, busyPin := o.busyPin, dioPin := o.dioPin,
            frequency := o.frequency, bandwidth := o.bandwidth,
            spreadingFactor := o.spreadingFactor, codingRate := o.codingRate,
            syncWord := o.syncWord, preambleLength := o.preambleLength,
            tcxoVoltage := o.tcxoVoltage,
            useDio2AsRfSwitch := o.useDio2AsRfSwitch, btEnabled := o.btEnabled,
            pwr := 0, sclkPin := 0, misoPin := 0, mosiPin := 0,
            nssPin := 0, rstPin := 0, dio0Pin := 0, dio1Pin := 0 }
        if o.deviceType = 0 then
          some (enforceHeltecPins { base with pwr := 14 })
        else
          some { base with
                 pwr := 17, sclkPin := 18, misoPin := 19,
                 mosiPin := 23, nssPin := o.csPin, rstPin := o.resetPin,
                 dio0Pin := o.busyPin, dio1Pin := o.dioPin }
      else none
  | .absent => none

/-! ## Radio bringup (initRadioRobust, firmware lines 628-690)

The RadioLib driver's `begin` sequence is external; it is abstracted as a
function from the configuration (pins and radio parameters) and the
attempted TCXO voltage and power to the driver status code
(0 = RADIOLIB_ERR_NONE). -/

/-- Abstract RadioLib driver outcome for one bringup attempt. -/
def RadioDriver : Type :=
  LoraConfig → Rat → Nat → Int

/-- The attempt matrix of one `tryProfile` pass: outer loop over output
powers (configured power, then 14, then 10), inner loop over TCXO
voltages (configured voltage, then 1.8, 1.6, 0.0). -/
def attemptList (cfg : LoraConfig) : List (Rat × Nat) :=
  ([cfg.pwr, 14, 10] : List Nat).flatMap
    (fun pw => ([cfg.tcxoVoltage, 9 / 5, 8 / 5, 0] : List Rat).map
      (fun tv => (tv, pw)))

/-- Run the attempts in order, remembering the last driver status;
stop at the first attempt the driver accepts. -/
def runAttempts (drv : RadioDriver) (cfg : LoraConfig) :
    List (Rat × Nat) → Int → Option (Rat × Nat) × Int
  | [], last => (none, last)
  | c :: rest, _ =>
      if drv cfg c.1 c.2 = 0 then (some c, drv cfg c.1 c.2)
      else runAttempts drv cfg rest (drv cfg c.1 c.2)

/-- Run the attempt matrix for a fixed configuration; on success commit
the winning voltage and power back into the configuration, on failure
report the last driver status. -/
def tryProfileRun (drv : RadioDriver) (cfg : LoraConfig) :
    LoraConfig × Bool × Int :=
  match runAttempts drv cfg (attemptList cfg) (-999) with
  | (some c, st) => ({ cfg with tcxoVoltage := c.1, pwr := c.2 }, true, st)
  | (none, st) => (cfg, false, st)

/-- One pass of the retry matrix: optionally re-enforce the Heltec pins
first (only for deviceType 0), then try every combination. -/
def tryProfile (drv : RadioDriver) (cfg0 : LoraConfig) (enforce : Bool) :
    LoraConfig × Bool × Int :=
  tryProfileRun drv
    (if enforce && cfg0.deviceType == 0 then enforceHeltecPins cfg0 else cfg0)

/-- `initRadioRobust`: one pass without pin enforcement; if it fails and
the profile is the pin-constrained Heltec variant, reset the pins and run
the whole matrix once more; report the last driver status on failure. -/
def initRadioRobust (drv : RadioDriver) (cfg : LoraConfig) :
    LoraConfig × Bool × Int :=
  if (tryProfile drv cfg false).2.1 = true then tryProfile drv cfg false
  else if cfg.deviceType == 0 then
    tryProfile drv (tryProfile drv cfg false).1 true
  else tryProfile drv cfg false

/-! ## Setup state machine (startConfigMode lines 1007-1047, the `save`
and `init` branches of handleCommand lines 1222-1239) -/

/-- The dispatcher flags driving the SETUP sub-loop. -/
structure SetupState where
  setupMode : Bool
  setupSaveRequested : Bool
  radioReady : Bool
  configSaved : Bool
  meshRunning : Bool
deriving DecidableEq

/-- The commands relevant to the SETUP gate: `save`, `init` (whose
bringup outcome is abstracted as a boolean), and anything else. -/
inductive SetupCmd where
  | save : SetupCmd
  | init (ok : Bool) : SetupCmd
  | other : SetupCmd
deriving DecidableEq

/-- Effect of one command on the setup flags: in SETUP, `save` only
records the request (persisting happens at loop exit) while outside
SETUP it persists immediately; `init` runs radio bringup, which sets
`radioReady` to its outcome. -/
def handleCommandSetup (st : SetupState) (c : SetupCmd) : SetupState :=
  match c with
  | .save =>
      if st.setupMode then { st with setupSaveRequested := true }
      else { st with configSaved := true }
  | .init ok => { st with radioReady := ok }
  | .other => st

/-- The SETUP sub-loop over a finite trace of incoming commands: after
each processed command the exit guard `setupSaveRequested ∧ radioReady`
is re-evaluated; the boolean reports whether the loop exited within the
trace. -/
def setupLoop : SetupState → List SetupCmd → SetupState × Bool
  | st, [] => (st, false)
  | st, c :: rest =>
      let st2 := handleCommandSetup st c
      if st2.setupSaveRequested && st2.radioReady then (st2, true)
      else setupLoop st2 rest

/-- `startConfigMode`: raise the SETUP flags, run the sub-loop; when the
guard is met, persist the configuration, start the mesh (the exit guard
guarantees the radio is ready) and leave SETUP. -/
def startConfigMode (st0 : SetupState) (cmds : List SetupCmd) :
    SetupState × Bool :=
  match setupLoop { st0 with setupMode := true, setupSaveRequested := false }
      cmds with
  | (st1, true) =>
      ({ st1 with
         configSaved := true, meshRunning := true, setupMode := false }, true)
  | (st1, false) => (st1, false)

/-! ## Basic lemmas -/

lemma crcRound_lt (c : Nat) : crcRound c < 65536 := by
  unfold crcRound
  split <;> exact Nat.mod_lt _ (by norm_num)

lemma crcByte_lt (c b : Nat) : crcByte c b < 65536 := by
  unfold crcByte
  rw [Function.iterate_succ_apply']
  exact crcRound_lt _

lemma foldl_crcByte_lt (data : List Nat) (a : Nat) (h : a < 65536) :
    data.foldl crcByte a < 65536 := by
  induction data generalizing a with
  | nil => simpa using h
  | cons x xs ih => simpa [List.foldl] using ih (crcByte a x) (crcByte_lt a x)

lemma crc16_ccitt_lt (data : List Nat) : crc16_ccitt data < 65536 :=
  foldl_crcByte_lt data 0xFFFF (by norm_num)

lemma keystream_length (E : List Nat → List Nat) (nc : List Nat) (n : Nat) :
    (keystream E nc n).length = n := by
  simp [keystream]

lemma ctrXcrypt_length (E : List Nat → List Nat) (nc p : List Nat) :
    (ctrXcrypt E nc p).length = p.length := by
  simp [ctrXcrypt, keystream_length]

lemma zipWith_xor_cancel (p : List Nat) : ∀ ks : List Nat,
    p.length ≤ ks.length →
    List.zipWith (fun a k => a ^^^ k)
      (List.zipWith (fun a k => a ^^^ k) p ks) ks = p := by
  induction p with
  | nil => intro ks _; simp
  | cons a p ih =>
      intro ks h
      cases ks with
      | nil => simp at h
      | cons k ks =>
          simp only [List.zipWith_cons_cons, List.cons.injEq]
          exact ⟨Nat.xor_cancel_right k a, ih ks (by simpa using h)⟩

lemma ctrXcrypt_ctrXcrypt (E : List Nat → List Nat) (nc p : List Nat) :
    ctrXcrypt E nc (ctrXcrypt E nc p) = p := by
  have hlen := ctrXcrypt_length E nc p
  conv_lhs => rw [ctrXcrypt, hlen]
  rw [ctrXcrypt]
  exact zipWith_xor_cancel p _ (le_of_eq (keystream_length E nc p.length).symm)

lemma keystream_bytes_lt (E : List Nat → List Nat) (nc : List Nat) (n : Nat) :
    ∀ b ∈ keystream E nc n, b < 256 := by
  intro b hb
  simp only [keystream, List.mem_map] at hb
  obtain ⟨i, _, rfl⟩ := hb
  exact Nat.mod_lt _ (by norm_num)

lemma zipWith_xor_bytes (p : List Nat) : ∀ ks : List Nat,
    (∀ b ∈ p, b < 256) → (∀ k ∈ ks, k < 256) →
    ∀ b ∈ List.zipWith (fun a k => a ^^^ k) p ks, b < 256 := by
  induction p with
  | nil => intro ks _ _ b hb; simp at hb
  | cons a p ih =>
      intro ks hp hk b hb
      cases ks with
      | nil => simp at hb
      | cons k ks =>
          simp only [List.zipWith_cons_cons, List.mem_cons] at hb
          rcases hb with rfl | hb
          · have h2 : (256 : Nat) = 2 ^ 8 := by norm_num
            rw [h2]
            exact Nat.xor_lt_two_pow (by simpa [h2] using hp a (by simp))
              (by simpa [h2] using hk k (by simp))
          · exact ih ks (fun x hx => hp x (by simp [hx]))
              (fun x hx => hk x (by simp [hx])) b hb

lemma ctrXcrypt_bytes_lt (E : List Nat → List Nat) (nc p : List Nat)
    (hp : ∀ b ∈ p, b < 256) : ∀ b ∈ ctrXcrypt E nc p, b < 256 :=
  zipWith_xor_bytes p _ hp (keystream_bytes_lt E nc p.length)

lemma mapMod_eq_self (l : List Nat) (h : ∀ b ∈ l, b < 256) :
    l.map (fun b => b % 256) = l := by
  induction l with
  | nil => simp
  | cons a l ih =>
      simp only [List.map_cons, List.cons.injEq]
      exact ⟨Nat.mod_eq_of_lt (h a (by simp)),
        ih (fun x hx => h x (by simp [hx]))⟩

lemma encryptCtr_length (enabled : Bool) (env : CipherEnv)
    (p nonce : List Nat) (counter : Nat) (q : List Nat)
    (h : encryptCtr enabled env p nonce counter = some q) :
    q.length = p.length := by
  unfold encryptCtr at h
  split at h
  · simp_all
  · split at h
    · simp_all
    · simp only [Option.some.injEq] at h
      rw [← h, ctrXcrypt_length]

lemma encryptCtr_bytes_lt (enabled : Bool) (env : CipherEnv)
    (p nonce : List Nat) (counter : Nat) (q : List Nat)
    (hp : ∀ b ∈ p, b < 256)
    (h : encryptCtr enabled env p nonce counter = some q) :
    ∀ b ∈ q, b < 256 := by
  unfold encryptCtr at h
  split at h
  · simp_all
  · split at h
    · simp_all
    · simp only [Option.some.injEq] at h
      rw [← h]
      exact ctrXcrypt_bytes_lt _ _ _ hp

/-! ## Claim C3 -/

/-- Claim C3: for every payload of at most 120 bytes, every 128-bit key
(the key and keyed block function live in `env`), every nonce and every
counter, decrypting a successful encryption with the same key, nonce and
counter yields the original payload; and with the encryption flag off,
`encryptCtr` is the identity on the payload. -/
theorem ctr_cipher_roundtrip (env : CipherEnv) (payload nonce : List Nat)
    (counter : Nat) (cipher : List Nat)
    (hlen : payload.length ≤ 120)
    (henc : encryptCtr true env payload nonce counter = some cipher) :
    decryptCtr true env cipher nonce counter = some payload ∧
    (∀ (env2 : CipherEnv) (p n : List Nat) (c : Nat),
      encryptCtr false env2 p n c = some p) := by
  constructor
  · unfold encryptCtr at henc
    rw [if_neg (by simp)] at henc
    split at henc
    · exact absurd henc (by simp)
    · simp only [Option.some.injEq] at henc
      unfold decryptCtr encryptCtr
      rw [if_neg (by simp)]
      split
      · simp_all
      · rw [← henc, ctrXcrypt_ctrXcrypt]
  · intro env2 p n c
    simp [encryptCtr]

/-- Witness for C3 at a concrete payload, key, nonce and counter. -/
theorem ctr_cipher_roundtrip_witness :
    decryptCtr true ⟨List.replicate 16 0, fun _ _ => List.replicate 16 7, true⟩
      ((encryptCtr true
        ⟨List.replicate 16 0, fun _ _ => List.replicate 16 7, true⟩
        [9, 9, 9] [1, 2, 3, 4, 5, 6, 7, 8] 7).getD [])
      [1, 2, 3, 4, 5, 6, 7, 8] 7 = some [9, 9, 9] := by
  exact (ctr_cipher_roundtrip
    ⟨List.replicate 16 0, fun _ _ => List.replicate 16 7, true⟩
    [9, 9, 9] [1, 2, 3, 4, 5, 6, 7, 8] 7 _ (by norm_num) (by decide)).1

/-! ## Claim C2 -/

/-- Counterexample to C2: submit checksum 5 to a fresh cache (inserted at
ring position 0, head advances to 1), then submit 5 again.  The second
submission matches and `isDuplicate` returns `true` leaving the cache
and the ring position completely unchanged (head stays 1), so the claim
that it always inserts and advances regardless of a match is false. -/
theorem isDuplicate_always_insert_cex :
    (isDuplicate (isDuplicate ⟨List.replicate 24 0, 0⟩ 5).2 5).1 = true ∧
    (isDuplicate (isDuplicate ⟨List.replicate 24 0, 0⟩ 5).2 5).2 =
      (isDuplicate ⟨List.replicate 24 0, 0⟩ 5).2 ∧
    ((isDuplicate (isDuplicate ⟨List.replicate 24 0, 0⟩ 5).2 5).2).dupHead = 1 := by
  decide

/-- Claim C2 (amended): `isDuplicate` linearly scans the 24-entry ring;
checksum 0 never matches; on a match it returns `true` and leaves the
cache and ring position unchanged; only when no match is found does it
insert the checksum at the current ring position and advance the
position modulo 24 (and the 24-entry ring shape is preserved). -/
theorem isDuplicate_spec (st : DupState) (crc : Nat)
    (hlen : st.dupCache.length = 24) (hhead : st.dupHead < 24) :
    ((st.dupCache.any (fun v => v == crc) && crc != 0) = true →
      isDuplicate st crc = (true, st)) ∧
    ((st.dupCache.any (fun v => v == crc) && crc != 0) = false →
      isDuplicate st crc =
        (false, ⟨st.dupCache.set st.dupHead crc, (st.dupHead + 1) % 24⟩)) ∧
    (crc = 0 → (isDuplicate st crc).1 = false) ∧
    ((isDuplicate st crc).2.dupCache.length = 24 ∧
      (isDuplicate st crc).2.dupHead < 24) := by
  refine ⟨?_, ?_, ?_, ?_⟩
  · intro h
    unfold isDuplicate
    rw [if_pos h]
  · intro h
    unfold isDuplicate
    rw [if_neg (by simp [h])]
    have : (if st.dupHead + 1 ≥ 24 then 0 else st.dupHead + 1) =
        (st.dupHead + 1) % 24 := by
      split <;> omega
    rw [this]
  · intro h
    subst h
    unfold isDuplicate
    rw [if_neg (by simp)]
  · unfold isDuplicate
    split
    · exact ⟨hlen, hhead⟩
    · constructor
      · simpa using hlen
      · simp only
        split <;> omega

/-- Witness for the amended C2 at a fresh cache and checksum 5. -/
theorem isDuplicate_spec_witness :
    isDuplicate ⟨List.replicate 24 0, 0⟩ 5 =
      (false, ⟨(List.replicate 24 0).set 0 5, 1⟩) := by
  have h := isDuplicate_spec ⟨List.replicate 24 0, 0⟩ 5 (by decide) (by decide)
  simpa using h.2.1 (by decide)

/-! ## Claim C6 -/

/-- Claim C6: sending a non-plaintext-type frame with encryption enabled
while cipher key setup fails returns failure, hands nothing to the radio
transmit primitive, and leaves the node state (including the transmit
counter) unchanged — an unencrypted payload is never transmitted when
encryption was requested. -/
theorem cipher_failure_aborts_send (env : CipherEnv) (st : MeshState)
    (ty dst : Nat) (payload nonce : List Nat) (txOk : Bool)
    (hplain : plainType (ty % 256) = false)
    (henc : st.meshEncryptionEnabled = true)
    (hkey : env.keyOk = false) :
    (sendMeshPacket env st ty dst payload nonce txOk).ok = false ∧
    (sendMeshPacket env st ty dst payload nonce txOk).sent = none ∧
    (sendMeshPacket env st ty dst payload nonce txOk).st = st := by
  unfold sendMeshPacket
  split
  · simp
  · split
    · simp
    · simp [hplain, encryptCtr, henc, hkey]

/-- Witness for C6 with a concrete failing key setup. -/
theorem cipher_failure_aborts_send_witness :
    (sendMeshPacket ⟨[], fun _ _ => [], false⟩ ⟨true, true, 1, 1⟩ 32 2 [1]
      [0, 0, 0, 0, 0, 0, 0, 0] true).sent = none := by
  exact (cipher_failure_aborts_send ⟨[], fun _ _ => [], false⟩
    ⟨true, true, 1, 1⟩ 32 2 [1] [0, 0, 0, 0, 0, 0, 0, 0] true
    (by decide) (by decide) (by decide)).2.1

/-! ## Inversion of a successful sendMeshPacket -/

lemma sendMeshPacket_inv (env : CipherEnv) (st : MeshState) (ty dst : Nat)
    (payload nonce : List Nat) (txOk : Bool) (frame : List Nat)
    (h : (sendMeshPacket env st ty dst payload nonce txOk).sent = some frame) :
    st.radioReady = true ∧ payload.length ≤ 120 ∧
    ∃ enc,
      (if plainType (ty % 256) then some payload
       else encryptCtr st.meshEncryptionEnabled env payload nonce
         st.meshTxCounter) = some enc ∧
      enc.length = payload.length ∧
      frame = buildFrame (ty % 256) st.nodeId dst st.meshTxCounter nonce enc ∧
      sendMeshPacket env st ty dst payload nonce txOk =
        ⟨{ st with meshTxCounter := (st.meshTxCounter + 1) % 4294967296 },
          some (buildFrame (ty % 256) st.nodeId dst st.meshTxCounter nonce enc),
          txOk⟩ := by
  unfold sendMeshPacket at h
  split at h
  next hr => simp at h
  next hr =>
    split at h
    next hl => simp at h
    next hl =>
      split at h
      next heq => simp at h
      next enc heq =>
        simp only [Option.some.injEq] at h
        have hr2 : st.radioReady = true := by
          cases hrr : st.radioReady
          · exact absurd hrr hr
          · rfl
        have hel : enc.length = payload.length := by
          by_cases hp : plainType (ty % 256) = true
          · rw [if_pos hp] at heq
            simp only [Option.some.injEq] at heq
            rw [← heq]
          · rw [if_neg hp] at heq
            exact encryptCtr_length _ _ _ _ _ _ heq
        refine ⟨hr2, by omega, enc, heq, hel, h.symm, ?_⟩
        unfold sendMeshPacket
        rw [if_neg hr, if_neg hl, heq]

/-! ## Decoding an encoded frame -/

lemma getD_append_len (l m : List Nat) (i d : Nat) :
    (l ++ m).getD (l.length + i) d = m.getD i d := by
  induction l with
  | nil => simp
  | cons a l ih => simpa [Nat.succ_add] using ih

lemma exists_eight (l : List Nat) (h : l.length = 8) :
    ∃ a b c d e f g k, l = [a, b, c, d, e, f, g, k] := by
  rcases l with _ | ⟨a, l⟩; · simp at h
  rcases l with _ | ⟨b, l⟩; · simp at h
  rcases l with _ | ⟨c, l⟩; · simp at h
  rcases l with _ | ⟨d, l⟩; · simp at h
  rcases l with _ | ⟨e, l⟩; · simp at h
  rcases l with _ | ⟨f, l⟩; · simp at h
  rcases l with _ | ⟨g, l⟩; · simp at h
  rcases l with _ | ⟨k, l⟩; · simp at h
  have hnil : l = [] := by
    simp only [List.length_cons] at h
    exact List.eq_nil_of_length_eq_zero (by omega)
  exact ⟨a, b, c, d, e, f, g, k, by rw [hnil]⟩

lemma decode_buildFrame (env : CipherEnv) (e : Bool) (nid ty src dst ctr : Nat)
    (nonce enc : List Nat)
    (hty : ty < 256) (hsrc : src < 65536) (hdst : dst < 65536)
    (hctr : ctr < 4294967296) (hnl : nonce.length = 8)
    (hnb : ∀ b ∈ nonce, b < 256) (hel : enc.length ≤ 120)
    (heb : ∀ b ∈ enc, b < 256) (hdok : dst = 65535 ∨ dst = nid) :
    handleMeshFrame env e nid (buildFrame ty src dst ctr nonce enc) =
      if plainType ty then DecodeResult.accept ty src dst ctr nonce enc
      else
        match decryptCtr e env enc nonce ctr with
        | none => DecodeResult.reject
        | some plain => DecodeResult.accept ty src dst ctr nonce plain := by
  obtain ⟨n0, n1, n2, n3, n4, n5, n6, n7, rfl⟩ := exists_eight nonce hnl
  simp only [buildFrame, beBytes2, beBytes4, List.cons_append, List.nil_append,
    List.append_assoc]
  rw [Nat.mod_eq_of_lt hty, Nat.mod_eq_of_lt hsrc, Nat.mod_eq_of_lt hdst,
    Nat.mod_eq_of_lt hctr, Nat.mod_eq_of_lt (show enc.length < 256 by omega)]
  have hb0 : n0 < 256 := hnb _ (by simp)
  have hb1 : n1 < 256 := hnb _ (by simp)
  have hb2 : n2 < 256 := hnb _ (by simp)
  have hb3 : n3 < 256 := hnb _ (by simp)
  have hb4 : n4 < 256 := hnb _ (by simp)
  have hb5 : n5 < 256 := hnb _ (by simp)
  have hb6 : n6 < 256 := hnb _ (by simp)
  have hb7 : n7 < 256 := hnb _ (by simp)
  have hqlt := crc16_ccitt_lt (77 :: 88 :: 1 :: ty :: src / 256 % 256 ::
    src % 256 :: dst / 256 % 256 :: dst % 256 :: ctr / 16777216 % 256 ::
    ctr / 65536 % 256 :: ctr / 256 % 256 :: ctr % 256 :: n0 :: n1 :: n2 ::
    n3 :: n4 :: n5 :: n6 :: n7 :: enc.length :: enc)
  generalize hq : crc16_ccitt (77 :: 88 :: 1 :: ty :: src / 256 % 256 ::
    src % 256 :: dst / 256 % 256 :: dst % 256 :: ctr / 16777216 % 256 ::
    ctr / 65536 % 256 :: ctr / 256 % 256 :: ctr % 256 :: n0 :: n1 :: n2 ::
    n3 :: n4 :: n5 :: n6 :: n7 :: enc.length :: enc) = q
  rw [hq] at hqlt
  show handleMeshFrame env e nid
    (([77, 88, 1, ty, src / 256 % 256, src % 256, dst / 256 % 256, dst % 256,
       ctr / 16777216 % 256, ctr / 65536 % 256, ctr / 256 % 256, ctr % 256,
       n0, n1, n2, n3, n4, n5, n6, n7, enc.length] ++ enc) ++
     [q / 256 % 256, q % 256]) = _
  set P : List Nat := [77, 88, 1, ty, src / 256 % 256, src % 256,
    dst / 256 % 256, dst % 256, ctr / 16777216 % 256, ctr / 65536 % 256,
    ctr / 256 % 256, ctr % 256, n0, n1, n2, n3, n4, n5, n6, n7, enc.length]
    with hP
  set F : List Nat := (P ++ enc) ++ [q / 256 % 256, q % 256] with hF
  have hLlen : (P ++ enc).length = 21 + enc.length := by
    rw [hP]; simp; omega
  have hFlen : F.length = 23 + enc.length := by
    rw [hF, List.length_append, hLlen]; simp; omega
  have eqB0 : byteAt F 0 = 77 := rfl
  have eqB1 : byteAt F 1 = 88 := rfl
  have eqB3 : byteAt F 3 = ty := Nat.mod_eq_of_lt hty
  have eqB4 : byteAt F 4 = src / 256 % 256 := by
    show src / 256 % 256 % 256 = _; omega
  have eqB5 : byteAt F 5 = src % 256 := by
    show src % 256 % 256 = _; omega
  have eqB6 : byteAt F 6 = dst / 256 % 256 := by
    show dst / 256 % 256 % 256 = _; omega
  have eqB7 : byteAt F 7 = dst % 256 := by
    show dst % 256 % 256 = _; omega
  have eqB8 : byteAt F 8 = ctr / 16777216 % 256 := by
    show ctr / 16777216 % 256 % 256 = _; omega
  have eqB9 : byteAt F 9 = ctr / 65536 % 256 := by
    show ctr / 65536 % 256 % 256 = _; omega
  have eqB10 : byteAt F 10 = ctr / 256 % 256 := by
    show ctr / 256 % 256 % 256 = _; omega
  have eqB11 : byteAt F 11 = ctr % 256 := by
    show ctr % 256 % 256 = _; omega
  have eqB20 : byteAt F 20 = enc.length := by
    show enc.length % 256 = _; omega
  have eqCtrF : frameCtr F = ctr := by
    unfold frameCtr
    rw [eqB8, eqB9, eqB10, eqB11]
    omega
  have eqHi : byteAt F (F.length - 2) = q / 256 := by
    show F.getD (F.length - 2) 0 % 256 = q / 256
    rw [hFlen, show 23 + enc.length - 2 = (P ++ enc).length + 0 by
      rw [hLlen]; omega, hF, getD_append_len]
    show q / 256 % 256 % 256 = q / 256
    omega
  have eqLo : byteAt F (F.length - 1) = q % 256 := by
    show F.getD (F.length - 1) 0 % 256 = q % 256
    rw [hFlen, show 23 + enc.length - 1 = (P ++ enc).length + 1 by
      rw [hLlen]; omega, hF, getD_append_len]
    show q % 256 % 256 = q % 256
    omega
  have eqTake : F.take (F.length - 2) = P ++ enc := by
    rw [hFlen, show 23 + enc.length - 2 = (P ++ enc).length by
      rw [hLlen]; omega, hF, List.take_left]
  have eqCrcL : crc16_ccitt (P ++ enc) = q := hq
  have eqNonceMap : ((F.drop 12).take 8).map (fun b => b % 256) =
      [n0, n1, n2, n3, n4, n5, n6, n7] :=
    mapMod_eq_self [n0, n1, n2, n3, n4, n5, n6, n7] hnb
  have eqPayTake : (F.drop 21).take enc.length = enc := List.take_left enc _
  have eqPayMap : ((F.drop 21).take (byteAt F 20)).map (fun b => b % 256) =
      enc := by
    rw [eqB20, eqPayTake, mapMod_eq_self enc heb]
  unfold handleMeshFrame
  rw [if_neg (by rw [hFlen]; omega)]
  rw [if_neg (by rw [eqB0, eqB1]; simp)]
  rw [if_neg (by rw [eqHi, eqLo, eqTake, eqCrcL]; omega)]
  rw [if_neg (by rw [eqB20, hFlen]; omega)]
  rw [if_neg (by rw [eqB6, eqB7]; omega)]
  rw [eqB3, eqB4, eqB5, eqB6, eqB7, eqCtrF, eqNonceMap, eqPayMap]
  rw [show src / 256 % 256 * 256 + src % 256 = src by omega,
    show dst / 256 % 256 * 256 + dst % 256 = dst by omega]

lemma decryptCtr_encryptCtr (e : Bool) (env : CipherEnv) (p nonce : List Nat)
    (c : Nat) (q : List Nat) (h : encryptCtr e env p nonce c = some q) :
    decryptCtr e env q nonce c = some p := by
  unfold decryptCtr
  unfold encryptCtr at h ⊢
  by_cases he : e = false
  · rw [if_pos he] at h ⊢
    simp_all
  · rw [if_neg he] at h ⊢
    by_cases hk : env.keyOk = false
    · rw [if_pos hk] at h
      exact absurd h (by simp)
    · rw [if_neg hk] at h ⊢
      simp only [Option.some.injEq] at h
      rw [← h, ctrXcrypt_ctrXcrypt]

/-! ## Claim C1 -/

/-- Claim C1: for every type byte, destination id and payload of at most
120 bytes, a frame successfully laid out by `sendMeshPacket` (magic
0x4D 0x58, version, type, srcId, dstId, counter, 8-byte nonce,
payloadLen, payload, CRC-16) and then decoded by `handleMeshFrame` at a
receiver whose node id matches the destination (or destination 0xFFFF),
with the same key and encryption state, yields back the identical type,
source id, destination id, counter, nonce and payload. -/
theorem mesh_encode_decode_roundtrip (env : CipherEnv) (st : MeshState)
    (rx ty dst : Nat) (payload nonce : List Nat) (txOk : Bool)
    (frame : List Nat)
    (hsend : (sendMeshPacket env st ty dst payload nonce txOk).sent =
      some frame)
    (hty : ty < 256) (hdst : dst < 65536) (hsrc : st.nodeId < 65536)
    (hctr : st.meshTxCounter < 4294967296) (hnl : nonce.length = 8)
    (hnb : ∀ b ∈ nonce, b < 256) (hpb : ∀ b ∈ payload, b < 256)
    (hrx : dst = 65535 ∨ dst = rx) :
    handleMeshFrame env st.meshEncryptionEnabled rx frame =
      DecodeResult.accept ty st.nodeId dst st.meshTxCounter nonce payload := by
  obtain ⟨hr, hlen, enc, heq, hel, hframe, hres⟩ :=
    sendMeshPacket_inv env st ty dst payload nonce txOk frame hsend
  subst hframe
  have hty2 : ty % 256 = ty := Nat.mod_eq_of_lt hty
  have heb : ∀ b ∈ enc, b < 256 := by
    by_cases hp : plainType (ty % 256) = true
    · rw [if_pos hp] at heq
      simp only [Option.some.injEq] at heq
      rw [← heq]
      exact hpb
    · rw [if_neg hp] at heq
      exact encryptCtr_bytes_lt _ _ _ _ _ _ hpb heq
  have hdec := decode_buildFrame env st.meshEncryptionEnabled rx (ty % 256)
    st.nodeId dst st.meshTxCounter nonce enc (by omega) hsrc hdst hctr hnl hnb
    (by omega) heb hrx
  rw [hty2] at heq hdec ⊢
  rw [hdec]
  by_cases hp : plainType ty = true
  · rw [if_pos hp] at heq ⊢
    simp only [Option.some.injEq] at heq
    rw [← heq]
  · rw [if_neg hp] at heq ⊢
    rw [decryptCtr_encryptCtr _ _ _ _ _ _ heq]

set_option maxRecDepth 4000 in
/-- Witness for C1: a concrete encrypted message round-trips. -/
theorem mesh_encode_decode_roundtrip_witness :
    handleMeshFrame ⟨List.replicate 16 0, fun _ _ => List.replicate 16 7, true⟩
      true 2
      ((sendMeshPacket
        ⟨List.replicate 16 0, fun _ _ => List.replicate 16 7, true⟩
        ⟨true, true, 5, 7⟩ 32 2 [9, 9] [1, 2, 3, 4, 5, 6, 7, 8]
        true).sent.getD []) =
      DecodeResult.accept 32 5 2 7 [1, 2, 3, 4, 5, 6, 7, 8] [9, 9] := by
  exact mesh_encode_decode_roundtrip
    ⟨List.replicate 16 0, fun _ _ => List.replicate 16 7, true⟩
    ⟨true, true, 5, 7⟩ 2 32 2 [9, 9] [1, 2, 3, 4, 5, 6, 7, 8] true _
    (by decide) (by decide) (by decide) (by decide) (by decide) (by decide)
    (by decide) (by decide) (by decide)

/-! ## Claim C4 -/

set_option maxRecDepth 8000 in
/-- Counterexample to C4: a well-formed frame (magic, CRC and length all
valid) addressed to node 2 is silently rejected by a receiver with node
id 1, although none of the four rejection conditions listed by the claim
holds — so those four conditions do not characterize rejection exactly. -/
theorem decode_reject_exactly_cex :
    handleMeshFrame ⟨[], fun _ _ => [], true⟩ false 1
      (buildFrame 1 5 2 7 [0, 0, 0, 0, 0, 0, 0, 0] []) = DecodeResult.reject ∧
    ¬((buildFrame 1 5 2 7 [0, 0, 0, 0, 0, 0, 0, 0] []).length < 22 ∨
      ¬(byteAt (buildFrame 1 5 2 7 [0, 0, 0, 0, 0, 0, 0, 0] []) 0 = 77 ∧
        byteAt (buildFrame 1 5 2 7 [0, 0, 0, 0, 0, 0, 0, 0] []) 1 = 88) ∨
      byteAt (buildFrame 1 5 2 7 [0, 0, 0, 0, 0, 0, 0, 0] [])
          ((buildFrame 1 5 2 7 [0, 0, 0, 0, 0, 0, 0, 0] []).length - 2) * 256 +
        byteAt (buildFrame 1 5 2 7 [0, 0, 0, 0, 0, 0, 0, 0] [])
          ((buildFrame 1 5 2 7 [0, 0, 0, 0, 0, 0, 0, 0] []).length - 1) ≠
        crc16_ccitt ((buildFrame 1 5 2 7 [0, 0, 0, 0, 0, 0, 0, 0] []).take
          ((buildFrame 1 5 2 7 [0, 0, 0, 0, 0, 0, 0, 0] []).length - 2)) ∨
      21 + byteAt (buildFrame 1 5 2 7 [0, 0, 0, 0, 0, 0, 0, 0] []) 20 + 2 ≠
        (buildFrame 1 5 2 7 [0, 0, 0, 0, 0, 0, 0, 0] []).length) := by
  decide

/-- Claim C4 (amended): `handleMeshFrame` rejects — returning silently
without any state change, which the pure `DecodeResult.reject` encodes —
exactly when the input is shorter than 22 bytes, or the first two bytes
differ from the magic 0x4D 0x58, or the CRC-16/CCITT-FALSE checksum
recomputed over all bytes except the last two differs from the
big-endian value in the last two bytes, or `21 + payloadLen + 2`
differs from the input length, or (the two cases the original claim
omits) the destination id is neither 0xFFFF nor the receiver's node id,
or the frame's type is not a plaintext type and the decrypt step
fails. -/
theorem decode_reject_iff (env : CipherEnv) (e : Bool) (nid : Nat)
    (buf : List Nat) :
    handleMeshFrame env e nid buf = DecodeResult.reject ↔
      (buf.length < 22 ∨
       ¬(byteAt buf 0 = 77 ∧ byteAt buf 1 = 88) ∨
       byteAt buf (buf.length - 2) * 256 + byteAt buf (buf.length - 1) ≠
         crc16_ccitt (buf.take (buf.length - 2)) ∨
       21 + byteAt buf 20 + 2 ≠ buf.length ∨
       ¬(byteAt buf 6 * 256 + byteAt buf 7 = 65535 ∨
         byteAt buf 6 * 256 + byteAt buf 7 = nid) ∨
       (plainType (byteAt buf 3) = false ∧
        decryptCtr e env
          (((buf.drop 21).take (byteAt buf 20)).map (fun b => b % 256))
          (((buf.drop 12).take 8).map (fun b => b % 256)) (frameCtr buf) =
          none)) := by
  unfold handleMeshFrame
  split
  next h => simp [h]
  next h =>
    split
    next h2 => simp [h, h2]
    next h2 =>
      split
      next h3 => simp [h, h2, h3]
      next h3 =>
        split
        next h4 => simp [h, h2, h3, h4]
        next h4 =>
          split
          next h5 => simp [h, h2, h3, h4, h5]
          next h5 =>
            split
            next h6 => simp [h, h2, h3, h4, h5, h6]
            next h6 =>
              split
              next heq =>
                simp_all [List.map_take, List.map_drop]
              next plain heq =>
                simp_all [List.map_take, List.map_drop]
                exact h5

/-! ## Claim C5 -/

/-- Claim C5: frames of the four plaintext types (0x01, 0x02, 0x30, 0x31)
carry the payload verbatim on the wire regardless of the
encryption-enabled flag, and are interpreted by the receiver without any
dependence on key or encryption state; every other type with encryption
enabled carries the CTR-encrypted payload on the wire. -/
theorem plaintext_types_bypass_cipher (env : CipherEnv) (st : MeshState)
    (ty dst : Nat) (payload nonce : List Nat) (txOk : Bool) (frame : List Nat)
    (hsent : (sendMeshPacket env st ty dst payload nonce txOk).sent =
      some frame) :
    (plainType (ty % 256) = true →
      frame = buildFrame (ty % 256) st.nodeId dst st.meshTxCounter nonce
        payload) ∧
    (plainType (ty % 256) = false → st.meshEncryptionEnabled = true →
      frame = buildFrame (ty % 256) st.nodeId dst st.meshTxCounter nonce
        (ctrXcrypt (env.aes env.key) (nonceCounter nonce st.meshTxCounter)
          payload)) ∧
    (∀ (env2 : CipherEnv) (e1 e2 : Bool) (nid : Nat) (buf : List Nat),
      plainType (byteAt buf 3) = true →
      handleMeshFrame env e1 nid buf = handleMeshFrame env2 e2 nid buf) := by
  obtain ⟨hr, hlen, enc, heq, hel, hframe, hres⟩ :=
    sendMeshPacket_inv env st ty dst payload nonce txOk frame hsent
  refine ⟨?_, ?_, ?_⟩
  · intro hp
    rw [if_pos hp] at heq
    simp only [Option.some.injEq] at heq
    rw [hframe, ← heq]
  · intro hp he
    rw [if_neg (by simp [hp])] at heq
    unfold encryptCtr at heq
    rw [he, if_neg (by simp)] at heq
    split at heq
    · exact absurd heq (by simp)
    · simp only [Option.some.injEq] at heq
      rw [hframe, ← heq]
  · intro env2 e1 e2 nid buf hp
    unfold handleMeshFrame
    rw [hp]
    simp

set_option maxRecDepth 8000 in
/-- Witness for C5: a concrete discovery-request frame sent with the
encryption flag on still carries its payload verbatim. -/
theorem plaintext_types_bypass_cipher_witness :
    (sendMeshPacket ⟨[], fun _ _ => [], true⟩ ⟨true, true, 5, 7⟩ 1 65535
      [9, 9] [0, 0, 0, 0, 0, 0, 0, 0] true).sent.getD [] =
    buildFrame 1 5 65535 7 [0, 0, 0, 0, 0, 0, 0, 0] [9, 9] := by
  exact (plaintext_types_bypass_cipher ⟨[], fun _ _ => [], true⟩
    ⟨true, true, 5, 7⟩ 1 65535 [9, 9] [0, 0, 0, 0, 0, 0, 0, 0] true _
    (by decide)).1 (by decide)

/-! ## Claim C10 -/

lemma frameCtr_buildFrame (ty src dst ctr : Nat) (nonce enc : List Nat) :
    frameCtr (buildFrame ty src dst ctr nonce enc) = ctr % 4294967296 := by
  show ctr % 4294967296 / 16777216 % 256 % 256 * 16777216 +
    ctr % 4294967296 / 65536 % 256 % 256 * 65536 +
    ctr % 4294967296 / 256 % 256 % 256 * 256 + ctr % 4294967296 % 256 % 256 =
    ctr % 4294967296
  omega

set_option maxRecDepth 8000 in
/-- Counterexample to C10: with the 32-bit transmit counter at
0xFFFFFFFF, two successive successful sends carry counters 4294967295
and then 0 — the counter wraps, so the counters carried in successive
frames are not strictly increasing. -/
theorem tx_counter_wrap_cex :
    (sendMeshPacket ⟨[], fun _ _ => [], true⟩ ⟨true, false, 1, 4294967295⟩ 1
        65535 [] [0, 0, 0, 0, 0, 0, 0, 0] true).sent.isSome = true ∧
    frameCtr ((sendMeshPacket ⟨[], fun _ _ => [], true⟩
        ⟨true, false, 1, 4294967295⟩ 1 65535 [] [0, 0, 0, 0, 0, 0, 0, 0]
        true).sent.getD []) = 4294967295 ∧
    (sendMeshPacket ⟨[], fun _ _ => [], true⟩
        ((sendMeshPacket ⟨[], fun _ _ => [], true⟩ ⟨true, false, 1, 4294967295⟩
          1 65535 [] [0, 0, 0, 0, 0, 0, 0, 0] true).st) 1 65535 []
        [0, 0, 0, 0, 0, 0, 0, 0] true).sent.isSome = true ∧
    frameCtr ((sendMeshPacket ⟨[], fun _ _ => [], true⟩
        ((sendMeshPacket ⟨[], fun _ _ => [], true⟩ ⟨true, false, 1, 4294967295⟩
          1 65535 [] [0, 0, 0, 0, 0, 0, 0, 0] true).st) 1 65535 []
        [0, 0, 0, 0, 0, 0, 0, 0] true).sent.getD []) = 0 := by
  decide

/-- Claim C10 (amended): every call to `sendMeshPacket` that passes the
radio-ready and payload-length checks and whose cipher step succeeds
increments the node's transmit counter by exactly one modulo 2^32
before the radio transmit is attempted — in particular the counter
advances whatever the driver's transmit status `txOk`/`txOk2` is — and
the counters carried in successive frames from one node are strictly
increasing as long as the 32-bit counter does not wrap. -/
theorem sendMeshPacket_counter_increment (env : CipherEnv) (st : MeshState)
    (ty dst ty2 dst2 : Nat) (payload nonce payload2 nonce2 : List Nat)
    (txOk txOk2 : Bool) (frame frame2 : List Nat)
    (h1 : (sendMeshPacket env st ty dst payload nonce txOk).sent = some frame)
    (h2 : (sendMeshPacket env
      (sendMeshPacket env st ty dst payload nonce txOk).st ty2 dst2 payload2
      nonce2 txOk2).sent = some frame2)
    (hlt : st.meshTxCounter + 1 < 4294967296) :
    (sendMeshPacket env st ty dst payload nonce txOk).st.meshTxCounter =
      st.meshTxCounter + 1 ∧
    frameCtr frame = st.meshTxCounter ∧
    frameCtr frame2 = st.meshTxCounter + 1 ∧
    frameCtr frame < frameCtr frame2 := by
  obtain ⟨hr1, hl1, enc1, heq1, hel1, hframe1, hres1⟩ :=
    sendMeshPacket_inv env st ty dst payload nonce txOk frame h1
  obtain ⟨hr2, hl2, enc2, heq2, hel2, hframe2, hres2⟩ :=
    sendMeshPacket_inv env (sendMeshPacket env st ty dst payload nonce txOk).st
      ty2 dst2 payload2 nonce2 txOk2 frame2 h2
  have hst : (sendMeshPacket env st ty dst payload nonce txOk).st.meshTxCounter
      = st.meshTxCounter + 1 := by
    rw [hres1]
    show (st.meshTxCounter + 1) % 4294967296 = st.meshTxCounter + 1
    omega
  have hc1 : frameCtr frame = st.meshTxCounter := by
    rw [hframe1, frameCtr_buildFrame]
    omega
  have hc2 : frameCtr frame2 = st.meshTxCounter + 1 := by
    rw [hframe2, frameCtr_buildFrame, hst]
    omega
  exact ⟨hst, hc1, hc2, by omega⟩

set_option maxRecDepth 8000 in
/-- Witness for the amended C10: two concrete successive sends carry
counters 7 and 8. -/
theorem sendMeshPacket_counter_increment_witness :
    frameCtr ((sendMeshPacket ⟨[], fun _ _ => [], true⟩ ⟨true, false, 5, 7⟩ 1
      65535 [] [0, 0, 0, 0, 0, 0, 0, 0] true).sent.getD []) = 7 ∧
    frameCtr ((sendMeshPacket ⟨[], fun _ _ => [], true⟩
      ((sendMeshPacket ⟨[], fun _ _ => [], true⟩ ⟨true, false, 5, 7⟩ 1 65535
        [] [0, 0, 0, 0, 0, 0, 0, 0] true).st) 1 65535 []
      [0, 0, 0, 0, 0, 0, 0, 0] true).sent.getD []) = 8 := by
  have h := sendMeshPacket_counter_increment ⟨[], fun _ _ => [], true⟩
    ⟨true, false, 5, 7⟩ 1 65535 1 65535 [] [0, 0, 0, 0, 0, 0, 0, 0] []
    [0, 0, 0, 0, 0, 0, 0, 0] true true
    ((sendMeshPacket ⟨[], fun _ _ => [], true⟩ ⟨true, false, 5, 7⟩ 1 65535 []
      [0, 0, 0, 0, 0, 0, 0, 0] true).sent.getD [])
    ((sendMeshPacket ⟨[], fun _ _ => [], true⟩
      ((sendMeshPacket ⟨[], fun _ _ => [], true⟩ ⟨true, false, 5, 7⟩ 1 65535
        [] [0, 0, 0, 0, 0, 0, 0, 0] true).st) 1 65535 []
      [0, 0, 0, 0, 0, 0, 0, 0] true).sent.getD [])
    (by decide) (by decide) (by decide)
  exact ⟨h.2.1, h.2.2.1⟩

/-! ## Claims C7, C8, C9 -/

lemma runAttempts_all_fail (drv : RadioDriver) (cfg : LoraConfig) :
    ∀ (l : List (Rat × Nat)) (a : Int), (∀ c ∈ l, drv cfg c.1 c.2 ≠ 0) →
    runAttempts drv cfg l a =
      (none, l.foldl (fun _ c => drv cfg c.1 c.2) a) := by
  intro l
  induction l with
  | nil => intro a _; rfl
  | cons c rest ih =>
      intro a hall
      simp only [runAttempts, List.foldl_cons]
      rw [if_neg (hall c (by simp))]
      exact ih _ (fun x hx => hall x (by simp [hx]))

lemma runAttempts_first_success (drv : RadioDriver) (cfg : LoraConfig) :
    ∀ (l1 : List (Rat × Nat)) (c : Rat × Nat) (l2 : List (Rat × Nat))
      (a : Int),
    (∀ x ∈ l1, drv cfg x.1 x.2 ≠ 0) → drv cfg c.1 c.2 = 0 →
    runAttempts drv cfg (l1 ++ c :: l2) a = (some c, 0) := by
  intro l1
  induction l1 with
  | nil =>
      intro c l2 a _ hc
      simp only [List.nil_append, runAttempts]
      rw [if_pos hc, hc]
  | cons x rest ih =>
      intro c l2 a h1 hc
      simp only [List.cons_append, runAttempts]
      rw [if_neg (h1 x (by simp))]
      exact ih c l2 _ (fun y hy => h1 y (by simp [hy])) hc

lemma tryProfileRun_first_success (drv : RadioDriver) (cfg : LoraConfig)
    (l1 : List (Rat × Nat)) (c : Rat × Nat) (l2 : List (Rat × Nat))
    (hsplit : attemptList cfg = l1 ++ c :: l2)
    (h1 : ∀ x ∈ l1, drv cfg x.1 x.2 ≠ 0) (hc : drv cfg c.1 c.2 = 0) :
    tryProfileRun drv cfg =
      ({ cfg with tcxoVoltage := c.1, pwr := c.2 }, true, 0) := by
  unfold tryProfileRun
  rw [hsplit, runAttempts_first_success drv cfg l1 c l2 (-999) h1 hc]

lemma tryProfileRun_all_fail (drv : RadioDriver) (cfg : LoraConfig)
    (hall : ∀ x ∈ attemptList cfg, drv cfg x.1 x.2 ≠ 0) :
    tryProfileRun drv cfg = (cfg, false,
      (attemptList cfg).foldl (fun _ c => drv cfg c.1 c.2) (-999)) := by
  unfold tryProfileRun
  rw [runAttempts_all_fail drv cfg _ _ hall]

lemma tryProfile_false (drv : RadioDriver) (cfg : LoraConfig) :
    tryProfile drv cfg false = tryProfileRun drv cfg := by
  simp [tryProfile]

/-- Claim C7: radio bringup iterates outer-to-inner over the power
candidates (configured power, then 14, then 10) and the TCXO-voltage
candidates (configured voltage, then 1.8, 1.6, 0.0); the first
combination the driver accepts is committed into the configuration's
voltage and power fields with bringup returning success — in particular
when the first two candidates fail and the third succeeds the committed
configuration carries the third combination; when the profile is the
pin-constrained variant (deviceType 0) and all attempts fail, the pins
are force-reset to the canonical values and the whole matrix is retried
once more; when every attempt fails, bringup reports failure with the
last driver error code (the code of the final attempt, TCXO 0.0 at
power 10). -/
theorem initRadioRobust_spec (drv : RadioDriver) (cfg : LoraConfig) :
    (attemptList cfg =
      [(cfg.tcxoVoltage, cfg.pwr), (9 / 5, cfg.pwr), (8 / 5, cfg.pwr),
       (0, cfg.pwr), (cfg.tcxoVoltage, 14), (9 / 5, 14), (8 / 5, 14),
       (0, 14), (cfg.tcxoVoltage, 10), (9 / 5, 10), (8 / 5, 10), (0, 10)]) ∧
    (∀ (l1 : List (Rat × Nat)) (c : Rat × Nat) (l2 : List (Rat × Nat)),
      attemptList cfg = l1 ++ c :: l2 → (∀ x ∈ l1, drv cfg x.1 x.2 ≠ 0) →
      drv cfg c.1 c.2 = 0 →
      initRadioRobust drv cfg =
        ({ cfg with tcxoVoltage := c.1, pwr := c.2 }, true, 0)) ∧
    (drv cfg cfg.tcxoVoltage cfg.pwr ≠ 0 → drv cfg (9 / 5) cfg.pwr ≠ 0 →
      drv cfg (8 / 5) cfg.pwr = 0 →
      initRadioRobust drv cfg =
        ({ cfg with tcxoVoltage := 8 / 5, pwr := cfg.pwr }, true, 0)) ∧
    (cfg.deviceType = 0 → (∀ x ∈ attemptList cfg, drv cfg x.1 x.2 ≠ 0) →
      initRadioRobust drv cfg = tryProfileRun drv (enforceHeltecPins cfg)) ∧
    (cfg.deviceType ≠ 0 → (∀ x ∈ attemptList cfg, drv cfg x.1 x.2 ≠ 0) →
      initRadioRobust drv cfg = (cfg, false, drv cfg 0 10)) := by
  have hattempt : attemptList cfg =
      [(cfg.tcxoVoltage, cfg.pwr), (9 / 5, cfg.pwr), (8 / 5, cfg.pwr),
       (0, cfg.pwr), (cfg.tcxoVoltage, 14), (9 / 5, 14), (8 / 5, 14),
       (0, 14), (cfg.tcxoVoltage, 10), (9 / 5, 10), (8 / 5, 10), (0, 10)] := by
    simp [attemptList]
  have hfirst : ∀ (l1 : List (Rat × Nat)) (c : Rat × Nat)
      (l2 : List (Rat × Nat)),
      attemptList cfg = l1 ++ c :: l2 → (∀ x ∈ l1, drv cfg x.1 x.2 ≠ 0) →
      drv cfg c.1 c.2 = 0 →
      initRadioRobust drv cfg =
        ({ cfg with tcxoVoltage := c.1, pwr := c.2 }, true, 0) := by
    intro l1 c l2 hsplit h1 hc
    have htp := tryProfileRun_first_success drv cfg l1 c l2 hsplit h1 hc
    unfold initRadioRobust
    rw [tryProfile_false, htp]
    simp
  refine ⟨hattempt, hfirst, ?_, ?_, ?_⟩
  · intro h1 h2 h3
    exact hfirst [(cfg.tcxoVoltage, cfg.pwr), (9 / 5, cfg.pwr)]
      (8 / 5, cfg.pwr)
      [(0, cfg.pwr), (cfg.tcxoVoltage, 14), (9 / 5, 14), (8 / 5, 14),
       (0, 14), (cfg.tcxoVoltage, 10), (9 / 5, 10), (8 / 5, 10), (0, 10)]
      (by rw [hattempt]; rfl)
      (by
        intro x hx
        rcases List.mem_cons.mp hx with rfl | hx2
        · exact h1
        · rcases List.mem_cons.mp hx2 with rfl | hx3
          · exact h2
          · exact absurd hx3 (List.not_mem_nil x))
      h3
  · intro hdt hall
    have htp := tryProfileRun_all_fail drv cfg hall
    unfold initRadioRobust
    rw [tryProfile_false, htp]
    rw [if_neg (by simp)]
    rw [if_pos (by simp [hdt])]
    unfold tryProfile
    simp [hdt]
  · intro hdt hall
    have htp := tryProfileRun_all_fail drv cfg hall
    unfold initRadioRobust
    rw [tryProfile_false, htp]
    rw [if_neg (by simp)]
    rw [if_neg (by simpa using hdt)]
    rw [hattempt]
    simp


/-- Witness for C7: a concrete driver that only accepts TCXO 1.6 V at the
configured power 17 makes bringup commit exactly that combination. -/
theorem initRadioRobust_spec_witness :
    initRadioRobust
      (fun _ tv pw => if tv == 8 / 5 && pw == 17 then 0 else -2)
      ⟨0x4C4F5241, 1, 5, 14, 26, 35, 868, 125, 9, 7, 0x12, 22, 33 / 10,
        false, true, 17, 18, 19, 23, 5, 14, 26, 35⟩ =
      ({ (⟨0x4C4F5241, 1, 5, 14, 26, 35, 868, 125, 9, 7, 0x12, 22, 33 / 10,
          false, true, 17, 18, 19, 23, 5, 14, 26, 35⟩ : LoraConfig) with
          tcxoVoltage := 8 / 5, pwr := 17 }, true, 0) := by
  exact (initRadioRobust_spec
    (fun _ tv pw => if tv == 8 / 5 && pw == 17 then 0 else -2)
    ⟨0x4C4F5241, 1, 5, 14, 26, 35, 868, 125, 9, 7, 0x12, 22, 33 / 10,
      false, true, 17, 18, 19, 23, 5, 14, 26, 35⟩).2.2.1
    (by norm_num) (by norm_num) (by norm_num)

lemma setupLoop_exit_inv : ∀ (cmds : List SetupCmd) (st st1 : SetupState),
    setupLoop st cmds = (st1, true) →
    st1.setupSaveRequested = true ∧ st1.radioReady = true := by
  intro cmds
  induction cmds with
  | nil =>
      intro st st1 h
      simp [setupLoop] at h
  | cons c rest ih =>
      intro st st1 h
      simp only [setupLoop] at h
      split at h
      next hg =>
        simp only [Prod.mk.injEq] at h
        obtain ⟨rfl, -⟩ := h
        simpa [Bool.and_eq_true] using hg
      next hg => exact ih _ _ h

/-- Claim C8: the SETUP sub-loop exits only when a save has been
requested and radio bringup has already succeeded: a `save` alone while
the radio is not ready leaves the dispatcher in SETUP, whereas a
successful `init` followed by `save` exits SETUP, persists the
configuration and starts the mesh; and whenever the loop exits, both
the save request and radio readiness hold. -/
theorem setup_gate (st0 : SetupState) :
    (st0.radioReady = false →
      (startConfigMode st0 [SetupCmd.save]).2 = false ∧
      (startConfigMode st0 [SetupCmd.save]).1.setupMode = true) ∧
    ((startConfigMode st0 [SetupCmd.init true, SetupCmd.save]).2 = true ∧
      (startConfigMode st0 [SetupCmd.init true, SetupCmd.save]).1.setupMode =
        false ∧
      (startConfigMode st0 [SetupCmd.init true, SetupCmd.save]).1.configSaved =
        true ∧
      (startConfigMode st0 [SetupCmd.init true, SetupCmd.save]).1.meshRunning =
        true) ∧
    (∀ (cmds : List SetupCmd) (st1 : SetupState),
      setupLoop { st0 with setupMode := true, setupSaveRequested := false }
        cmds = (st1, true) →
      st1.setupSaveRequested = true ∧ st1.radioReady = true) := by
  refine ⟨?_, ?_, ?_⟩
  · intro h
    constructor
    · simp [startConfigMode, setupLoop, handleCommandSetup, h]
    · simp [startConfigMode, setupLoop, handleCommandSetup, h]
  · refine ⟨?_, ?_, ?_, ?_⟩ <;>
      simp [startConfigMode, setupLoop, handleCommandSetup]
  · intro cmds st1 h
    exact setupLoop_exit_inv cmds _ st1 h

/-- Witness for C8: from a fresh state with the radio not ready, `save`
alone does not leave SETUP. -/
theorem setup_gate_witness :
    (startConfigMode ⟨false, false, false, false, false⟩ [SetupCmd.save]).2 =
      false ∧
    (startConfigMode ⟨false, false, false, false, false⟩
      [SetupCmd.save]).1.setupMode = true := by
  exact (setup_gate ⟨false, false, false, false, false⟩).1 (by decide)

/-- Claim C9: loading a persisted blob of the legacy layout's size with
magic 0x4C4F5241 and deviceType 1 yields a current-layout configuration
with power 17, the SPI control pins copied from the legacy fields
(nss from cs, rst from reset, dio0 from busy, dio1 from dio), the
remaining new fields defaulted (sclk 18, miso 19, mosi 23), and all
shared fields carried over unchanged. -/
theorem legacy_config_migration (o : LegacyLoraConfig)
    (hm : o.magic = 0x4C4F5241) (hd : o.deviceType = 1) :
    loadConfig (StoredBlob.legacy o) = some
      { magic := o.magic, deviceType := o.deviceType, csPin := o.csPin,
        resetPin := o.resetPin, busyPin := o.busyPin, dioPin := o.dioPin,
        frequency := o.frequency, bandwidth := o.bandwidth,
        spreadingFactor := o.spreadingFactor, codingRate := o.codingRate,
        syncWord := o.syncWord, preambleLength := o.preambleLength,
        tcxoVoltage := o.tcxoVoltage,
        useDio2AsRfSwitch := o.useDio2AsRfSwitch, btEnabled := o.btEnabled,
        pwr := 17, sclkPin := 18, misoPin := 19, mosiPin := 23,
        nssPin := o.csPin, rstPin := o.resetPin, dio0Pin := o.busyPin,
        dio1Pin := o.dioPin } := by
  simp [loadConfig, hm, hd]

/-- Witness for C9 at a concrete legacy blob. -/
theorem legacy_config_migration_witness :
    loadConfig (StoredBlob.legacy
      ⟨0x4C4F5241, 1, 5, 14, 26, 35, 868, 125, 9, 7, 18, 22, 8 / 5, false,
        true⟩) = some
      ⟨0x4C4F5241, 1, 5, 14, 26, 35, 868, 125, 9, 7, 18, 22, 8 / 5, false,
        true, 17, 18, 19, 23, 5, 14, 26, 35⟩ := by
  exact legacy_config_migration
    ⟨0x4C4F5241, 1, 5, 14, 26, 35, 868, 125, 9, 7, 18, 22, 8 / 5, false,
      true⟩ (by decide) (by decide)

end MegaMesh
